import Mathlib

/-!
Shallow embedding of the cocklock crate (src/src/lock.rs, src/src/queries.rs,
src/src/errors.rs): a client-side distributed lock manager over a list of
Postgres-compatible backends.

Modelling conventions:
* Time is integer milliseconds; the SQL `now()` is passed explicitly as a
  parameter `now : Int` to each operation that issues a timestamped write.
* A backend's lock table is a `List Record`; the SQL statements of
  queries.rs are given executable semantics over that list
  (`execLockQuery`, `execUnlockQuery`, `reap`).
* A backend (`postgres::Client`) is either `up` with a database state or
  `down` with the `postgres::Error` its `execute` call would raise.
* The statement templates of queries.rs are kept verbatim as strings, and
  Rust's `str::replace` (replace every occurrence, left to right) is
  modelled by `rustReplace`.
-/

/-- One row of the lock table (queries.rs PG_TABLE_QUERY): columns
`client_id uuid not null`, `lock_name text not null unique`,
`expires_at timestamp` (nullable). -/
structure Record where
  client_id : String
  lock_name : String
  expires_at : Option Int
deriving DecidableEq

/-- A record is expired when `expires_at` is not null and `now() > expires_at`
(the condition of the `_lock_reap` trigger function in PG_TABLE_QUERY). -/
def Record.isExpired (now : Int) (r : Record) : Bool :=
  match r.expires_at with
  | none => false
  | some e => now > e

/-- The `_lock_reap` trigger body: delete every expired row. It fires (as a
statement-level `before insert or update` trigger) before the conflict check
of the lock upsert; it does not fire on delete. -/
def reap (now : Int) (t : List Record) : List Record :=
  t.filter (fun r => ! r.isExpired now)

/-- Semantics of PG_LOCK_QUERY over a table: the reap trigger runs, then
`insert into T (client_id, lock_name, expires_at) select $1, $2,
now() + ($3::int || \' milliseconds\')::interval on conflict (lock_name)
do update set expires_at = now() + ($3::int || \' milliseconds\')::interval
where T.client_id = excluded.client_id and T.lock_name = excluded.lock_name`.
Returns (rows affected, new table). Note the inserted/updated `expires_at`
is `now() + ms` even for `ms = 0`: the statement never writes NULL. -/
def execLockQuery (now : Int) (cid n : String) (ms : Int) (t : List Record) :
    Nat × List Record :=
  let t1 := reap now t
  match t1.find? (fun r => r.lock_name == n) with
  | none => (1, t1 ++ [⟨cid, n, some (now + ms)⟩])
  | some r =>
      if r.client_id == cid && r.lock_name == n then
        (1, t1.map fun s =>
          if s.lock_name == n then { s with expires_at := some (now + ms) } else s)
      else
        (0, t1)

/-- Semantics of PG_UNLOCK_QUERY over a table:
`delete from T where client_id = $1 and lock_name = $2`.
No trigger fires on delete, so no reap happens here. -/
def execUnlockQuery (cid n : String) (t : List Record) : Nat × List Record :=
  let keep := t.filter (fun r => !(r.client_id == cid && r.lock_name == n))
  (t.length - keep.length, keep)

/-- The SQLSTATE codes lock.rs compares against, plus all others. -/
inductive SqlState where
  | ADMIN_SHUTDOWN
  | CRASH_SHUTDOWN
  | otherState (code : String)
deriving DecidableEq

/-- The observable part of a `postgres::Error`: `is_closed()` and `code()`. -/
structure PgError where
  is_closed : Bool
  code : Option SqlState
deriving DecidableEq

/-- The transiency test of lock.rs (lines 82-85 and 112-115):
`err.is_closed() || err.code() == Some(&SqlState::ADMIN_SHUTDOWN)
|| err.code() == Some(&SqlState::CRASH_SHUTDOWN)`. -/
def isTransientErr (e : PgError) : Bool :=
  e.is_closed
    || e.code == some SqlState.ADMIN_SHUTDOWN
    || e.code == some SqlState.CRASH_SHUTDOWN

/-- One backend database's state: whether the lock table, the `_lock_reap`
function and the `_lock_reap_trigger` trigger exist, and the table rows. -/
structure Db where
  hasTable : Bool
  hasReapFn : Bool
  hasReapTrigger : Bool
  table : List Record
deriving DecidableEq

/-- Effect of PG_TABLE_QUERY (`create table if not exists`,
`create or replace function`, `create or replace trigger`): idempotent,
keeps existing rows when the table already exists. -/
def Db.createTable (db : Db) : Db :=
  { hasTable := true, hasReapFn := true, hasReapTrigger := true,
    table := if db.hasTable then db.table else [] }

/-- Effect of PG_CLEAN_UP_QUERY (`drop trigger if exists`,
`drop function if exists`, `drop table if exists`). -/
def Db.cleanUp (_db : Db) : Db :=
  { hasTable := false, hasReapFn := false, hasReapTrigger := false, table := [] }

/-- A `postgres::Client` as the lock manager observes it: reachable with a
database state, or unreachable/failing with the error its calls raise. -/
inductive Backend where
  | up (db : Db)
  | down (e : PgError)
deriving DecidableEq

/-- `client.execute(lock_query, &[id, name, timeout_ms])` on one backend. -/
def Backend.executeLock (now : Int) (cid n : String) (ms : Int) :
    Backend → Except PgError (Nat × Backend)
  | .up db =>
      let p := execLockQuery now cid n ms db.table
      .ok (p.1, .up { db with table := p.2 })
  | .down e => .error e

/-- `client.execute(unlock_query, &[id, name])` on one backend. -/
def Backend.executeUnlock (cid n : String) :
    Backend → Except PgError (Nat × Backend)
  | .up db =>
      let p := execUnlockQuery cid n db.table
      .ok (p.1, .up { db with table := p.2 })
  | .down e => .error e

/-- Whether a backend is down with an error the lock/unlock loops treat as
transient. -/
def Backend.isTransientDown : Backend → Bool
  | .up _ => false
  | .down e => isTransientErr e

/-- The error enum. errors.rs declares the first five variants;
lock.rs additionally returns `CockLockError::NoClientsAvailable` when every
client was skipped as transient (lock.rs lines 102 and 132; the published
crate carries this variant, errors.rs in this snapshot omits it). -/
inductive CockLockError where
  | CertificateFileError (msg : String) (path : String)
  | NativeTlsError (msg : String) (path : String)
  | PostgresError (e : PgError)
  | NoClients
  | NotAvailable
  | NoClientsAvailable
deriving DecidableEq

deriving instance DecidableEq for Except

/-- Rust `str::replace`: replace every non-overlapping occurrence of `pat`,
scanning left to right; `fuel` bounds the recursion (callers pass the haystack
length, which suffices for the nonempty patterns used here). -/
def replaceFuel (pat repl : List Char) : Nat → List Char → List Char
  | 0, s => s
  | _ + 1, [] => []
  | fuel + 1, c :: cs =>
      if pat.isPrefixOf (c :: cs) then
        repl ++ replaceFuel pat repl fuel ((c :: cs).drop pat.length)
      else
        c :: replaceFuel pat repl fuel cs

/-- Rust `s.replace(pat, repl)` on strings. -/
def rustReplace (s pat repl : String) : String :=
  String.mk (replaceFuel pat.data repl.data s.data.length s.data)

/-- queries.rs PG_TABLE_QUERY, verbatim. -/
def PG_TABLE_QUERY : String :=
  "\ncreate table if not exists TABLE_NAME (\n    client_id uuid not null,\n    lock_name text not null unique,\n    expires_at timestamp\n);\n\ncreate or replace function _lock_reap()\nreturns trigger as $$\n    begin\n        delete from TABLE_NAME\n        where\n            TABLE_NAME.expires_at is not null\n            and now() > TABLE_NAME.expires_at;\n        return null;\n    end;\n$$ language plpgsql;\n\ncreate or replace trigger _lock_reap_trigger\n    before insert or update\n    on TABLE_NAME\n    execute function _lock_reap();\n"

/-- queries.rs PG_LOCK_QUERY, verbatim. -/
def PG_LOCK_QUERY : String :=
  "\ninsert into TABLE_NAME (client_id, lock_name, expires_at)\nselect $1, $2, now() + ($3::int || \' milliseconds\')::interval\non conflict (lock_name) do update\n    set expires_at = now() + ($3::int || \' milliseconds\')::interval\n    where\n        TABLE_NAME.client_id = excluded.client_id\n        and TABLE_NAME.lock_name = excluded.lock_name;\n"

/-- queries.rs PG_UNLOCK_QUERY, verbatim. -/
def PG_UNLOCK_QUERY : String :=
  "\ndelete from TABLE_NAME\nwhere\n    client_id = $1\n    and lock_name = $2;\n"

/-- queries.rs PG_CLEAN_UP_QUERY, verbatim. -/
def PG_CLEAN_UP_QUERY : String :=
  "\ndrop trigger if exists _lock_reap_trigger on TABLE_NAME;\ndrop function if exists _lock_reap();\ndrop table if exists TABLE_NAME;\n"

/-- lock.rs `CockLockQueries`: the four per-instance statement templates. -/
structure CockLockQueries where
  create_table : String
  lock : String
  unlock : String
  clean_up : String
deriving DecidableEq

/-- lock.rs `CockLock`: instance id, ordered client list, table name and
statement templates. -/
structure CockLock where
  id : String
  clients : List Backend
  table_name : String
  queries : CockLockQueries
deriving DecidableEq

/-- The four templates with `TABLE_NAME` textually replaced by the instance's
table name, exactly as `CockLock::new` rebuilds them (lock.rs lines 45-50). -/
def derivedQueries (table_name : String) : CockLockQueries :=
  { create_table := rustReplace PG_TABLE_QUERY "TABLE_NAME" table_name
    lock := rustReplace PG_LOCK_QUERY "TABLE_NAME" table_name
    unlock := rustReplace PG_UNLOCK_QUERY "TABLE_NAME" table_name
    clean_up := rustReplace PG_CLEAN_UP_QUERY "TABLE_NAME" table_name }

/-- The provisioning loop of `CockLock::new`:
`for client in instance.clients.iter_mut() { client.batch_execute(&create_table)? }`.
Any client error aborts `new` (the instance is dropped), so the error case
discards the partial mutation. -/
def createTableLoop : List Backend → Except CockLockError (List Backend)
  | [] => .ok []
  | .down e :: _ => .error (.PostgresError e)
  | .up db :: rest =>
      match createTableLoop rest with
      | .error e => .error e
      | .ok rest2 => .ok (.up db.createTable :: rest2)

/-- lock.rs `CockLock::new`: overwrite the queries field with the templates
derived from `table_name` (whatever the caller passed in `queries`), then run
the create-table statement on every client. -/
def CockLock.new (cock_lock : CockLock) : Except CockLockError CockLock :=
  let inst := { cock_lock with queries := derivedQueries cock_lock.table_name }
  match createTableLoop inst.clients with
  | .error e => .error e
  | .ok cs => .ok { inst with clients := cs }

/-- The client loop of `CockLock::lock` (lock.rs lines 74-102): walk clients
in order; a transient error skips to the next client; any other error is
fatal; zero rows affected is `NotAvailable`; otherwise success. Returns the
result together with the clients' new states. -/
def lockLoop (now : Int) (cid n : String) (ms : Int) :
    List Backend → Except CockLockError Unit × List Backend
  | [] => (.error .NoClientsAvailable, [])
  | b :: rest =>
      match b.executeLock now cid n ms with
      | .error e =>
          if isTransientErr e then
            let p := lockLoop now cid n ms rest
            (p.1, b :: p.2)
          else
            (.error (.PostgresError e), b :: rest)
      | .ok (row_count, b2) =>
          if row_count == 0 then
            (.error .NotAvailable, b2 :: rest)
          else
            (.ok (), b2 :: rest)

/-- `CockLock::lock` with the lock name already rendered to a string. -/
def CockLock.lockCore (c : CockLock) (now : Int) (lock_name : String)
    (timeout_ms : Int) : Except CockLockError Unit × CockLock :=
  let p := lockLoop now c.id lock_name timeout_ms c.clients
  (p.1, { c with clients := p.2 })

/-- lock.rs `pub fn lock<T: ToString>(&mut self, lock_name: T, timeout_ms: i32)`:
the key sent to the backend is `lock_name.to_string()`. -/
def CockLock.lock {T : Type} [ToString T] (c : CockLock) (now : Int)
    (lock_name : T) (timeout_ms : Int) : Except CockLockError Unit × CockLock :=
  c.lockCore now (toString lock_name) timeout_ms

/-- The client loop of `CockLock::unlock` (lock.rs lines 107-132): same
shape as the lock loop, over the delete statement. -/
def unlockLoop (cid n : String) :
    List Backend → Except CockLockError Unit × List Backend
  | [] => (.error .NoClientsAvailable, [])
  | b :: rest =>
      match b.executeUnlock cid n with
      | .error e =>
          if isTransientErr e then
            let p := unlockLoop cid n rest
            (p.1, b :: p.2)
          else
            (.error (.PostgresError e), b :: rest)
      | .ok (row_count, b2) =>
          if row_count == 0 then
            (.error .NotAvailable, b2 :: rest)
          else
            (.ok (), b2 :: rest)

/-- `CockLock::unlock` with the lock name already rendered to a string. -/
def CockLock.unlockCore (c : CockLock) (lock_name : String) :
    Except CockLockError Unit × CockLock :=
  let p := unlockLoop c.id lock_name c.clients
  (p.1, { c with clients := p.2 })

/-- lock.rs `pub fn unlock<T: ToString>(&mut self, lock_name: T)`. -/
def CockLock.unlock {T : Type} [ToString T] (c : CockLock) (lock_name : T) :
    Except CockLockError Unit × CockLock :=
  c.unlockCore (toString lock_name)

/-- The client loop of `CockLock::clean_up` (lock.rs lines 137-141):
`for client in self.clients.iter_mut() { client.batch_execute(&clean_up)? }`.
The `?` propagates every error immediately (no transiency test); clients
already visited keep their dropped state since `clean_up` takes `&mut self`. -/
def cleanUpLoop : List Backend → Except CockLockError Unit × List Backend
  | [] => (.ok (), [])
  | .down e :: rest => (.error (.PostgresError e), .down e :: rest)
  | .up db :: rest =>
      let p := cleanUpLoop rest
      (p.1, .up db.cleanUp :: p.2)

/-- lock.rs `CockLock::clean_up`. -/
def CockLock.clean_up (c : CockLock) : Except CockLockError Unit × CockLock :=
  let p := cleanUpLoop c.clients
  (p.1, { c with clients := p.2 })

/-- Substring test on character lists (used to exhibit raw interpolation of
the table name into statement text). -/
def containsSub (needle : List Char) : List Char → Bool
  | [] => needle.isEmpty
  | c :: cs => needle.isPrefixOf (c :: cs) || containsSub needle cs

/-- A manager instance fixture: given id and clients, default table name,
empty templates (the templates do not influence the modelled semantics). -/
def mkMgr (id : String) (clients : List Backend) : CockLock :=
  { id := id, clients := clients, table_name := "_locks",
    queries := ⟨"", "", "", ""⟩ }

/-- A provisioned backend database with no rows. -/
def emptyDb : Db := ⟨true, true, true, []⟩

/-- A closed-connection error (`is_closed() = true`): transient. -/
def transientE : PgError := ⟨true, none⟩

/-- A definitive backend error (a syntax-error SQLSTATE): not transient. -/
def fatalE : PgError := ⟨false, some (SqlState.otherState "42601")⟩

/-- Owner A with one fresh backend (fixture for the ttl-zero scenario). -/
def c2A : CockLock := mkMgr "A" [Backend.up emptyDb]

/-- Owner B sharing the backend state left by A's `lock("n", 0)` at time 0. -/
def c2B : CockLock := mkMgr "B" (c2A.lockCore 0 "n" 0).2.clients

/-- Owner A with one fresh backend (fixture for the expired-release scenario). -/
def c6A : CockLock := mkMgr "A" [Backend.up emptyDb]

/-- Owner A after acquiring "n" with ttl 1000ms at time 0. -/
def c6A1 : CockLock := mkMgr "A" (c6A.lockCore 0 "n" 1000).2.clients

/-- A manager whose first client fails transiently and whose second is up. -/
def c7M : CockLock := mkMgr "A" [Backend.down transientE, Backend.up emptyDb]

/-- A backend holding an expired record for lock "b" owned by B. -/
def c10db : Db := ⟨true, true, true, [⟨"B", "b", some 10⟩]⟩

/-- Owner A on that backend. -/
def c10A : CockLock := mkMgr "A" [Backend.up c10db]

/-- Owner B on that backend before A touches it. -/
def c10B0 : CockLock := mkMgr "B" [Backend.up c10db]

/-- Owner B on the backend state left by A's `lock("a", 50)` at time 100. -/
def c10B1 : CockLock := mkMgr "B" (c10A.lockCore 100 "a" 50).2.clients

/-- A manager whose only client is down with a transient error. -/
def c4M : CockLock := mkMgr "A" [Backend.down transientE]

/-- A table name that is SQL, not an identifier. -/
def evilTableName : String := "x; drop table users; --"

/-- The queries an instance built with `evilTableName` ends up with. -/
def c8Queries : CockLockQueries := derivedQueries evilTableName

/-- An unprovisioned input instance carrying `evilTableName`. -/
def c8In : CockLock :=
  { id := "A", clients := [Backend.up ⟨false, false, false, []⟩],
    table_name := evilTableName, queries := ⟨"", "", "", ""⟩ }

/-- The uniqueness constraint of the schema (`lock_name text not null unique`):
a table holds at most one record per lock name. -/
abbrev uniqNames (t : List Record) : Prop :=
  ∀ r1 ∈ t, ∀ r2 ∈ t, r1.lock_name = r2.lock_name → r1 = r2

/-- The table after a successful renewal write: the reaper has run and the
record under `n` carries `expires_at = now() + ms`. -/
def renewTable (now ms : Int) (n : String) (t : List Record) : List Record :=
  (reap now t).map fun s =>
    if s.lock_name == n then { s with expires_at := some (now + ms) } else s

/-- The table after the unlock delete: rows matching (cid, n) removed. -/
def deleteMatching (cid n : String) (t : List Record) : List Record :=
  t.filter fun r => !(r.client_id == cid && r.lock_name == n)

/-- Whether a backend is reachable. -/
def Backend.isUp : Backend → Bool
  | .up _ => true
  | .down _ => false

/-- A backend on which A holds "n" until time 100 (fixture for C1/C5). -/
def c1db : Db := ⟨true, true, true, [⟨"A", "n", some 100⟩]⟩

/-- Owner B contending on that backend. -/
def c1B : CockLock := mkMgr "B" [Backend.up c1db]

/-- Owner A renewing on that backend. -/
def c5M : CockLock := mkMgr "A" [Backend.up c1db]

/-- A backend holding A's lock on "n" and B's lock on "m" (fixture for the
release-semantics witness). -/
def c6Wdb : Db := ⟨true, true, true, [⟨"A", "n", some 5⟩, ⟨"B", "m", some 7⟩]⟩

/-- Owner A releasing on that backend. -/
def c6WM : CockLock := mkMgr "A" [Backend.up c6Wdb]

/-- An unprovisioned input instance for `CockLock::new` (fixture for C9). -/
def c9In : CockLock := mkMgr "A" [Backend.up ⟨false, false, false, []⟩]

/-- The instance `CockLock::new` returns for `c9In`. -/
def c9Out : CockLock :=
  { id := "A", clients := [Backend.up ⟨true, true, true, []⟩],
    table_name := "_locks", queries := derivedQueries "_locks" }


/-- C2: the claim says `timeout_ms = 0` creates a record with no expiry that
is never reclaimed or overtaken. The code computes
`expires_at = now() + 0 milliseconds` (never NULL), so the record is already
expired one instant later: at time 1, B's acquire of the same name reaps A's
record and succeeds, overtaking the "indefinite" lock. This contradicts
lock.rs's own doc comment ("Pass 0 to timeout_ms to provide an infinite
timeout (locked until explicitly unlocked)"). -/
theorem ttl_zero_not_indefinite :
    (c2A.lockCore 0 "n" 0).1 = .ok () ∧
    (c2A.lockCore 0 "n" 0).2.clients
      = [Backend.up ⟨true, true, true, [⟨"A", "n", some 0⟩]⟩] ∧
    Record.isExpired 1 ⟨"A", "n", some 0⟩ = true ∧
    (c2B.lockCore 1 "n" 5).1 = .ok () ∧
    (c2B.lockCore 1 "n" 5).2.clients
      = [Backend.up ⟨true, true, true, [⟨"B", "n", some 6⟩]⟩] := by
  decide

/-- C6 counterexample: the claim says releasing an already-expired lock
returns `NotAvailable`. The delete statement has no expiry test and no
trigger fires on delete, so the owner's release of an expired but not yet
reaped record deletes it and returns Ok: A acquires "n" with ttl 1000 at
time 0, the record is expired from time 1001 on, no write touches the table,
and A's release succeeds (the release is time-independent). -/
theorem release_expired_unreaped_succeeds :
    (c6A.lockCore 0 "n" 1000).1 = .ok () ∧
    (c6A1.clients = [Backend.up ⟨true, true, true, [⟨"A", "n", some 1000⟩]⟩]) ∧
    Record.isExpired 2000 ⟨"A", "n", some 1000⟩ = true ∧
    (c6A1.unlockCore "n").1 = .ok () ∧
    (c6A1.unlockCore "n").2.clients = [Backend.up ⟨true, true, true, []⟩] := by
  decide

/-- C7 counterexample: the claim says `clean_up` skips a transiently failing
backend and moves to the next. The code propagates every `batch_execute`
error with `?`: with a first client down on a transient (closed-connection)
error and a healthy second client, `clean_up` returns the error and the
second client's schema is never dropped. -/
theorem clean_up_transient_not_skipped :
    isTransientErr transientE = true ∧
    (c7M.clean_up).1 = .error (.PostgresError transientE) ∧
    (c7M.clean_up).2.clients = [Backend.down transientE, Backend.up emptyDb] := by
  decide

/-- C10 counterexample: the claim says inputs with distinct renderings never
interfere. A backend holds an expired record for "b" owned by B; B's release
of "b" would succeed, but after A locks the distinct name "a" (whose write
fires the reaper, deleting the expired "b" record), B's release of "b"
returns `NotAvailable`: the call on "a" changed the outcome of a call on "b". -/
theorem lock_reaps_other_name_record :
    ("a" : String) ≠ "b" ∧
    (c10B0.unlockCore "b").1 = .ok () ∧
    (c10A.lockCore 100 "a" 50).1 = .ok () ∧
    (c10A.lockCore 100 "a" 50).2.clients
      = [Backend.up ⟨true, true, true, [⟨"A", "a", some 150⟩]⟩] ∧
    (c10B1.unlockCore "b").1 = .error .NotAvailable := by
  decide

set_option maxRecDepth 100000 in
/-- C8: the claim says the caller-supplied table name is validated or quoted
before being placed into statement text. The code does neither: `CockLock::new`
builds every statement by textual `replace` of `TABLE_NAME`, so a table name
that is itself SQL (`x; drop table users; --`) is accepted (`new` succeeds)
and appears raw and unquoted in the lock and create-table statements. -/
theorem table_name_interpolated_raw :
    CockLock.new c8In
      = .ok { id := "A", clients := [Backend.up ⟨true, true, true, []⟩],
              table_name := evilTableName, queries := c8Queries } ∧
    containsSub evilTableName.data c8Queries.lock.data = true ∧
    containsSub ("into " ++ evilTableName ++ " (client_id").data
      c8Queries.lock.data = true ∧
    containsSub evilTableName.data c8Queries.create_table.data = true ∧
    containsSub evilTableName.data c8Queries.unlock.data = true ∧
    containsSub evilTableName.data c8Queries.clean_up.data = true := by
  decide

/-- C3: per-backend outcome classification of the acquire loop: a transient
error advances to the next backend (carrying the failed backend unchanged);
any other backend error is returned immediately as a fatal PostgresError with
the remaining backends unconsulted; a write affecting zero rows returns
`NotAvailable` immediately; a write affecting at least one row returns Ok
immediately — in the three definitive cases the remaining backends are
returned untouched, so the outcome never depends on them. -/
theorem lock_backend_classification (now ms : Int) (cid n : String)
    (rest : List Backend) :
    (∀ e : PgError, isTransientErr e = true →
      lockLoop now cid n ms (Backend.down e :: rest)
        = ((lockLoop now cid n ms rest).1,
           Backend.down e :: (lockLoop now cid n ms rest).2)) ∧
    (∀ e : PgError, isTransientErr e = false →
      lockLoop now cid n ms (Backend.down e :: rest)
        = (.error (.PostgresError e), Backend.down e :: rest)) ∧
    (∀ db : Db, (execLockQuery now cid n ms db.table).1 = 0 →
      lockLoop now cid n ms (Backend.up db :: rest)
        = (.error .NotAvailable,
           Backend.up { db with table := (execLockQuery now cid n ms db.table).2 }
             :: rest)) ∧
    (∀ db : Db, (execLockQuery now cid n ms db.table).1 ≠ 0 →
      lockLoop now cid n ms (Backend.up db :: rest)
        = (.ok (),
           Backend.up { db with table := (execLockQuery now cid n ms db.table).2 }
             :: rest)) := by
  refine ⟨?_, ?_, ?_, ?_⟩
  · intro e he
    simp [lockLoop, Backend.executeLock, he]
  · intro e he
    simp [lockLoop, Backend.executeLock, he]
  · intro db h0
    simp [lockLoop, Backend.executeLock, h0]
  · intro db h0
    simp [lockLoop, Backend.executeLock, h0]

/-- Helper for C4: if every backend in the list is down with a transient
error, the acquire loop falls off the end and reports `NoClientsAvailable`. -/
theorem lockLoop_all_transient (now : Int) (cid n : String) (ms : Int)
    (bs : List Backend) (h : bs.all Backend.isTransientDown = true) :
    (lockLoop now cid n ms bs).1 = .error .NoClientsAvailable := by
  induction bs with
  | nil => rfl
  | cons b rest ih =>
      simp only [List.all_cons, Bool.and_eq_true] at h
      obtain ⟨hb, hrest⟩ := h
      cases b with
      | up db => simp [Backend.isTransientDown] at hb
      | down e =>
          simp only [Backend.isTransientDown] at hb
          simp [lockLoop, Backend.executeLock, hb]
          exact ih hrest

/-- C4: total outage: if every backend of the manager reports a transient
failure, acquire returns `NoClientsAvailable` (the code's name for the
spec's `NoBackendsAvailable`) — in particular never Ok and never
`NotAvailable`. -/
theorem total_outage_no_clients_available (c : CockLock) (now ms : Int)
    (n : String) (h : c.clients.all Backend.isTransientDown = true) :
    (c.lockCore now n ms).1 = .error CockLockError.NoClientsAvailable := by
  unfold CockLock.lockCore
  exact lockLoop_all_transient now c.id n ms c.clients h

/-- C4 witness: a manager whose only backend is down with a closed
connection gets `NoClientsAvailable` from acquire. -/
theorem total_outage_witness :
    (c4M.lockCore 0 "n" 5).1 = .error CockLockError.NoClientsAvailable :=
  total_outage_no_clients_available c4M 0 5 "n" (by decide)

/-- A live record survives the reaper. -/
theorem reap_keeps (now : Int) (t : List Record) (r : Record)
    (hmem : r ∈ t) (hlive : r.isExpired now = false) : r ∈ reap now t :=
  List.mem_filter.2 ⟨hmem, by simp [hlive]⟩

/-- Uniqueness of lock names is preserved by the reaper (a filter). -/
theorem uniqNames_reap (now : Int) (t : List Record) (h : uniqNames t) :
    uniqNames (reap now t) := fun r1 h1 r2 h2 =>
  h r1 (List.mem_of_mem_filter h1) r2 (List.mem_of_mem_filter h2)

/-- The renewal update does not change a record's lock name. -/
theorem renew_upd_name (now ms : Int) (n : String) (s : Record) :
    ((if s.lock_name == n then { s with expires_at := some (now + ms) }
      else s) : Record).lock_name = s.lock_name := by
  split <;> rfl

/-- Uniqueness of lock names is preserved by the renewal write. -/
theorem uniqNames_renewTable (now ms : Int) (n : String) (t : List Record)
    (h : uniqNames t) : uniqNames (renewTable now ms n t) := by
  intro r1 h1 r2 h2 hname
  obtain ⟨x1, hx1, rfl⟩ := List.mem_map.1 h1
  obtain ⟨x2, hx2, rfl⟩ := List.mem_map.1 h2
  rw [renew_upd_name, renew_upd_name] at hname
  rw [uniqNames_reap now t h x1 hx1 x2 hx2 hname]

/-- On a table satisfying the uniqueness constraint, the upsert's conflict
lookup finds exactly the live record under `n`. -/
theorem find_reap (now : Int) (t : List Record) (r : Record) (n : String)
    (huniq : uniqNames t) (hmem : r ∈ t) (hn : r.lock_name = n)
    (hlive : r.isExpired now = false) :
    (reap now t).find? (fun x => x.lock_name == n) = some r := by
  have hr1 : r ∈ reap now t := reap_keeps now t r hmem hlive
  have hsome : ((reap now t).find? (fun x => x.lock_name == n)).isSome :=
    List.find?_isSome.2 ⟨r, hr1, by simp [hn]⟩
  obtain ⟨x, hx⟩ := Option.isSome_iff_exists.1 hsome
  have hxn : x.lock_name = n := by simpa using List.find?_some hx
  have hxr : x = r :=
    huniq x (List.mem_of_mem_filter (List.mem_of_find?_eq_some hx)) r hmem
      (by rw [hxn, hn])
  rw [hx, hxr]

/-- The lock upsert against a live record of another owner: the conditional
update's WHERE clause fails, zero rows are affected, and the table is left
as the reaper left it. -/
theorem execLockQuery_conflict (now ms : Int) (cid n : String)
    (t : List Record) (r : Record) (huniq : uniqNames t) (hmem : r ∈ t)
    (hn : r.lock_name = n) (hother : r.client_id ≠ cid)
    (hlive : r.isExpired now = false) :
    execLockQuery now cid n ms t = (0, reap now t) := by
  have hfind := find_reap now t r n huniq hmem hn hlive
  have hcid : (r.client_id == cid) = false := by simp [hother]
  simp [execLockQuery, hfind, hcid]

/-- The lock upsert against the caller's own live record: one row is
affected and its expiry becomes `now() + ms`. -/
theorem execLockQuery_renew (now ms : Int) (cid n : String)
    (t : List Record) (r : Record) (huniq : uniqNames t) (hmem : r ∈ t)
    (hn : r.lock_name = n) (hown : r.client_id = cid)
    (hlive : r.isExpired now = false) :
    execLockQuery now cid n ms t = (1, renewTable now ms n t) := by
  have hfind := find_reap now t r n huniq hmem hn hlive
  simp [execLockQuery, renewTable, hfind, hown, hn]

/-- C1: mutual exclusion with no hijack: while A's record on `n` is live,
B's acquire (for any ttl) returns `NotAvailable` and A's record survives
with the same owner and the same expiry (the resulting table is exactly the
reaped table, which still contains A's record unchanged). -/
theorem mutual_exclusion_no_hijack (c : CockLock) (db : Db)
    (rest : List Backend) (r : Record) (now ms : Int) (n : String)
    (hc : c.clients = Backend.up db :: rest)
    (huniq : uniqNames db.table) (hmem : r ∈ db.table) (hn : r.lock_name = n)
    (hB : r.client_id ≠ c.id) (hlive : r.isExpired now = false) :
    (c.lockCore now n ms).1 = .error CockLockError.NotAvailable ∧
    (c.lockCore now n ms).2.clients
      = Backend.up { db with table := reap now db.table } :: rest ∧
    r ∈ reap now db.table := by
  have hq := execLockQuery_conflict now ms c.id n db.table r huniq hmem hn hB hlive
  refine ⟨?_, ?_, reap_keeps now db.table r hmem hlive⟩ <;>
    simp [CockLock.lockCore, lockLoop, hc, Backend.executeLock, hq]

/-- C1 witness: B contends for "n" held by A until time 100, at time 50. -/
theorem mutual_exclusion_witness :
    (c1B.lockCore 50 "n" 10).1 = .error CockLockError.NotAvailable ∧
    (c1B.lockCore 50 "n" 10).2.clients
      = Backend.up { c1db with table := reap 50 c1db.table } :: [] ∧
    (⟨"A", "n", some 100⟩ : Record) ∈ reap 50 c1db.table :=
  mutual_exclusion_no_hijack c1B c1db [] ⟨"A", "n", some 100⟩ 50 10 "n"
    rfl (by decide) (by decide) rfl (by decide) (by decide)

/-- C5: renewal resets rather than extends: when the caller already owns the
live record on `n`, acquire succeeds and the recorded expiry becomes
`now + ttl` for the current call's time; an immediately following acquire by
the same owner at any time `now2` within the lease also succeeds and records
`now2 + ttl` — based on the second call's time, not added to the first. -/
theorem renewal_resets_expiry (c : CockLock) (db : Db) (rest : List Backend)
    (r : Record) (now now2 ms : Int) (n : String)
    (hc : c.clients = Backend.up db :: rest)
    (huniq : uniqNames db.table) (hmem : r ∈ db.table) (hn : r.lock_name = n)
    (hown : r.client_id = c.id) (hlive : r.isExpired now = false)
    (hle : now2 ≤ now + ms) :
    (c.lockCore now n ms).1 = .ok () ∧
    (c.lockCore now n ms).2.clients
      = Backend.up { db with table := renewTable now ms n db.table } :: rest ∧
    { r with expires_at := some (now + ms) } ∈ renewTable now ms n db.table ∧
    ((c.lockCore now n ms).2.lockCore now2 n ms).1 = .ok () ∧
    ((c.lockCore now n ms).2.lockCore now2 n ms).2.clients
      = Backend.up { db with table := renewTable now2 ms n (renewTable now ms n db.table) } :: rest ∧
    { r with expires_at := some (now2 + ms) }
      ∈ renewTable now2 ms n (renewTable now ms n db.table) := by
  have hq1 := execLockQuery_renew now ms c.id n db.table r huniq hmem hn hown hlive
  have hmem2 : { r with expires_at := some (now + ms) } ∈ renewTable now ms n db.table := by
    refine List.mem_map.2 ⟨r, reap_keeps now db.table r hmem hlive, ?_⟩
    simp [hn]
  have huniq2 : uniqNames (renewTable now ms n db.table) :=
    uniqNames_renewTable now ms n db.table huniq
  have hlive2 : Record.isExpired now2 { r with expires_at := some (now + ms) } = false := by
    simp only [Record.isExpired, decide_eq_false_iff_not, not_lt]
    omega
  have hq2 := execLockQuery_renew now2 ms c.id n (renewTable now ms n db.table)
    { r with expires_at := some (now + ms) } huniq2 hmem2 hn hown hlive2
  have hmem3 : { r with expires_at := some (now2 + ms) }
      ∈ renewTable now2 ms n (renewTable now ms n db.table) := by
    refine List.mem_map.2 ⟨{ r with expires_at := some (now + ms) },
      reap_keeps now2 _ _ hmem2 hlive2, ?_⟩
    simp [hn]
  refine ⟨?_, ?_, hmem2, ?_, ?_, hmem3⟩ <;>
    simp [CockLock.lockCore, lockLoop, hc, Backend.executeLock, hq1, hq2]

/-- C5 witness: A renews its lock on "n" (held until 100) at time 50 with
ttl 10, then again at time 55. -/
theorem renewal_witness :
    (c5M.lockCore 50 "n" 10).1 = .ok () ∧
    (c5M.lockCore 50 "n" 10).2.clients
      = Backend.up { c1db with table := renewTable 50 10 "n" c1db.table } :: [] ∧
    ({ client_id := "A", lock_name := "n", expires_at := some 60 } : Record)
      ∈ renewTable 50 10 "n" c1db.table ∧
    ((c5M.lockCore 50 "n" 10).2.lockCore 55 "n" 10).1 = .ok () ∧
    ((c5M.lockCore 50 "n" 10).2.lockCore 55 "n" 10).2.clients
      = Backend.up { c1db with table := renewTable 55 10 "n" (renewTable 50 10 "n" c1db.table) } :: [] ∧
    ({ client_id := "A", lock_name := "n", expires_at := some 65 } : Record)
      ∈ renewTable 55 10 "n" (renewTable 50 10 "n" c1db.table) :=
  renewal_resets_expiry c5M c1db [] ⟨"A", "n", some 100⟩ 50 55 10 "n"
    rfl (by decide) (by decide) rfl rfl (by decide) (by decide)

/-- The unlock delete affects zero rows exactly when no record matches the
caller's (owner id, lock name) pair. -/
theorem unlock_rows_zero_iff (cid n : String) (t : List Record) :
    t.length - (deleteMatching cid n t).length = 0 ↔
      ∀ r ∈ t, ¬(r.client_id = cid ∧ r.lock_name = n) := by
  rw [Nat.sub_eq_zero_iff_le]
  constructor
  · intro h r hr hmatch
    have hlen := List.length_filter_le
      (fun r => !(r.client_id == cid && r.lock_name == n)) t
    have heq : (deleteMatching cid n t).length = t.length := le_antisymm hlen h
    rw [deleteMatching, List.filter_length_eq_length] at heq
    have := heq r hr
    simp [hmatch.1, hmatch.2] at this
  · intro h
    have heq : deleteMatching cid n t = t := by
      rw [deleteMatching, List.filter_eq_self]
      intro a ha
      rcases Decidable.em (a.client_id = cid) with hc1 | hc1
      · have hn1 : a.lock_name ≠ n := fun hn1 => h a ha ⟨hc1, hn1⟩
        simp [hn1]
      · simp [hc1]
    rw [heq]

/-- The row count of the unlock delete. -/
theorem execUnlockQuery_fst (cid n : String) (t : List Record) :
    (execUnlockQuery cid n t).1 = t.length - (deleteMatching cid n t).length := rfl

/-- The table left by the unlock delete. -/
theorem execUnlockQuery_snd (cid n : String) (t : List Record) :
    (execUnlockQuery cid n t).2 = deleteMatching cid n t := rfl

/-- Reduction of the unlock loop against a reachable first backend. -/
theorem unlockLoop_up (cid n : String) (db : Db) (rest : List Backend) :
    unlockLoop cid n (Backend.up db :: rest)
      = if (execUnlockQuery cid n db.table).1 == 0
          then (.error CockLockError.NotAvailable,
                Backend.up { db with table := (execUnlockQuery cid n db.table).2 } :: rest)
          else (.ok (),
                Backend.up { db with table := (execUnlockQuery cid n db.table).2 } :: rest) := rfl

/-- C6 (amended): release deletes exactly the rows matching this manager's
owner id and the given name, with no expiry test; it returns `NotAvailable`
exactly when no such row is present (never acquired, already released,
already reaped, or held by another owner) and Ok exactly when one is — so
releasing one's own expired-but-unreaped record succeeds; a record of
another owner is never deleted; and the loop has acquire's failover:
transient errors skip to the next backend, others are fatal immediately. -/
theorem unlock_semantics (c : CockLock) (db : Db) (rest : List Backend)
    (n : String) (hc : c.clients = Backend.up db :: rest) :
    (c.unlockCore n).2.clients
      = Backend.up { db with table := deleteMatching c.id n db.table } :: rest ∧
    ((c.unlockCore n).1 = .error CockLockError.NotAvailable ↔
      ∀ r ∈ db.table, ¬(r.client_id = c.id ∧ r.lock_name = n)) ∧
    ((c.unlockCore n).1 = .ok () ↔
      ∃ r ∈ db.table, r.client_id = c.id ∧ r.lock_name = n) ∧
    (∀ r ∈ db.table, r.client_id ≠ c.id →
      r ∈ deleteMatching c.id n db.table) ∧
    (∀ (e : PgError) (bs : List Backend), isTransientErr e = true →
      unlockLoop c.id n (Backend.down e :: bs)
        = ((unlockLoop c.id n bs).1, Backend.down e :: (unlockLoop c.id n bs).2)) ∧
    (∀ (e : PgError) (bs : List Backend), isTransientErr e = false →
      unlockLoop c.id n (Backend.down e :: bs)
        = (.error (.PostgresError e), Backend.down e :: bs)) := by
  have hstep : c.unlockCore n
      = ((unlockLoop c.id n (Backend.up db :: rest)).1,
         { c with clients := (unlockLoop c.id n (Backend.up db :: rest)).2 }) := by
    simp only [CockLock.unlockCore, hc]
  have hzero := unlock_rows_zero_iff c.id n db.table
  refine ⟨?_, ?_, ?_, ?_, ?_, ?_⟩
  · rw [hstep, unlockLoop_up, execUnlockQuery_snd]
    split <;> rfl
  · rw [hstep, unlockLoop_up, execUnlockQuery_fst]
    split
    next hX =>
      have hx0 : db.table.length - (deleteMatching c.id n db.table).length = 0 := by
        simpa using hX
      simpa using hzero.1 hx0
    next hX =>
      have hx0 : ¬ db.table.length - (deleteMatching c.id n db.table).length = 0 := by
        simpa using hX
      constructor
      · intro hcontra
        exact absurd hcontra (by simp)
      · intro hall
        exact absurd (hzero.2 hall) hx0
  · rw [hstep, unlockLoop_up, execUnlockQuery_fst]
    split
    next hX =>
      have hx0 : db.table.length - (deleteMatching c.id n db.table).length = 0 := by
        simpa using hX
      constructor
      · intro hcontra
        exact absurd hcontra (by simp)
      · intro hex
        obtain ⟨r, hr, hm⟩ := hex
        exact absurd hm (hzero.1 hx0 r hr)
    next hX =>
      have hx0 : ¬ db.table.length - (deleteMatching c.id n db.table).length = 0 := by
        simpa using hX
      constructor
      · intro _
        by_contra hne
        push_neg at hne
        exact hx0 (hzero.2 fun r hr hm => hne r hr hm.1 hm.2)
      · intro _
        rfl
  · intro r hr hne
    exact List.mem_filter.2 ⟨hr, by simp [hne]⟩
  · intro e bs he
    simp [unlockLoop, Backend.executeUnlock, he]
  · intro e bs he
    simp [unlockLoop, Backend.executeUnlock, he]

/-- C6 witness: A releases "n" on a backend holding A's "n" and B's "m". -/
theorem unlock_semantics_witness :
    (c6WM.unlockCore "n").2.clients
      = Backend.up { c6Wdb with table := deleteMatching "A" "n" c6Wdb.table } :: [] ∧
    ((c6WM.unlockCore "n").1 = .error CockLockError.NotAvailable ↔
      ∀ r ∈ c6Wdb.table, ¬(r.client_id = "A" ∧ r.lock_name = "n")) ∧
    ((c6WM.unlockCore "n").1 = .ok () ↔
      ∃ r ∈ c6Wdb.table, r.client_id = "A" ∧ r.lock_name = "n") ∧
    (∀ r ∈ c6Wdb.table, r.client_id ≠ "A" →
      r ∈ deleteMatching "A" "n" c6Wdb.table) ∧
    (∀ (e : PgError) (bs : List Backend), isTransientErr e = true →
      unlockLoop "A" "n" (Backend.down e :: bs)
        = ((unlockLoop "A" "n" bs).1, Backend.down e :: (unlockLoop "A" "n" bs).2)) ∧
    (∀ (e : PgError) (bs : List Backend), isTransientErr e = false →
      unlockLoop "A" "n" (Backend.down e :: bs)
        = (.error (.PostgresError e), Backend.down e :: bs)) :=
  unlock_semantics c6WM c6Wdb [] "n" rfl

/-- When every backend is reachable, the clean-up loop succeeds and drops
the trigger, the function and the table on each of them. -/
theorem cleanUpLoop_all_up (bs : List Backend)
    (h : bs.all Backend.isUp = true) :
    cleanUpLoop bs = (.ok (), bs.map fun _ => Backend.up ⟨false, false, false, []⟩) := by
  induction bs with
  | nil => rfl
  | cons b rest ih =>
      simp only [List.all_cons, Bool.and_eq_true] at h
      cases b with
      | down e => simp [Backend.isUp] at h
      | up db => simp [cleanUpLoop, Db.cleanUp, ih h.2]

/-- C7 (amended): `clean_up` walks the backends in order dropping the Reaper
trigger, the Reaper function and the lock table on each; but it has no
failover: the first backend error — transient or not — is propagated
immediately and the remaining backends are left untouched. With every
backend reachable it succeeds and every backend ends with trigger, function
and table dropped. -/
theorem clean_up_amended :
    (∀ (e : PgError) (bs : List Backend),
      cleanUpLoop (Backend.down e :: bs)
        = (.error (.PostgresError e), Backend.down e :: bs)) ∧
    (∀ (db : Db) (bs : List Backend),
      cleanUpLoop (Backend.up db :: bs)
        = ((cleanUpLoop bs).1, Backend.up ⟨false, false, false, []⟩ :: (cleanUpLoop bs).2)) ∧
    (∀ c : CockLock, c.clients.all Backend.isUp = true →
      (c.clean_up).1 = .ok () ∧
      ∀ b ∈ (c.clean_up).2.clients, b = Backend.up ⟨false, false, false, []⟩) := by
  refine ⟨fun e bs => rfl, fun db bs => rfl, ?_⟩
  intro c h
  have hloop := cleanUpLoop_all_up c.clients h
  constructor
  · simp [CockLock.clean_up, hloop]
  · intro b hb
    simp only [CockLock.clean_up, hloop] at hb
    obtain ⟨x, _, hx⟩ := List.mem_map.1 hb
    exact hx.symm

/-- C9: every instance `CockLock::new` returns carries the four statement
templates derived from its table name by textual replacement of
`TABLE_NAME`, regardless of the `queries` value supplied in the input struct
(in particular the builder's create-table template passed for all four
fields is unconditionally overwritten), and no later operation (lock,
unlock, clean_up) changes them. -/
theorem query_templates_derived (input out : CockLock)
    (h : CockLock.new input = .ok out) :
    out.queries = derivedQueries input.table_name ∧
    out.id = input.id ∧
    out.table_name = input.table_name ∧
    (∀ (now ms : Int) (n : String),
      (out.lockCore now n ms).2.queries = out.queries) ∧
    (∀ n : String, (out.unlockCore n).2.queries = out.queries) ∧
    (out.clean_up).2.queries = out.queries := by
  simp only [CockLock.new] at h
  cases hcl : createTableLoop input.clients with
  | error e =>
      rw [hcl] at h
      exact absurd h (by simp)
  | ok cs =>
      rw [hcl] at h
      injection h with h2
      subst h2
      exact ⟨rfl, rfl, rfl, fun _ _ _ => rfl, fun _ => rfl, rfl⟩

/-- C9 witness: a fresh instance built over one reachable backend. -/
theorem query_templates_derived_witness :
    c9Out.queries = derivedQueries c9In.table_name ∧
    c9Out.id = c9In.id ∧
    c9Out.table_name = c9In.table_name ∧
    (∀ (now ms : Int) (n : String),
      (c9Out.lockCore now n ms).2.queries = c9Out.queries) ∧
    (∀ n : String, (c9Out.unlockCore n).2.queries = c9Out.queries) ∧
    (c9Out.clean_up).2.queries = c9Out.queries :=
  query_templates_derived c9In c9Out rfl

/-- C10 (amended): lock and unlock accept any `ToString` lock name and send
exactly its string rendering to the backend, so inputs of any types with
equal renderings address the same lock (same contention, renewal, release).
Inputs with distinct renderings never contend: a live record under another
name survives a lock call with owner and expiry unchanged, and any record
under another name survives an unlock call — but (as the counterexample
shows) a lock call's reaper side effect may delete expired records under
other names. -/
theorem lock_identity_amended :
    (∀ (T : Type) [ToString T] (c : CockLock) (now ms : Int) (x : T),
      CockLock.lock c now x ms = c.lockCore now (toString x) ms) ∧
    (∀ (T : Type) [ToString T] (c : CockLock) (x : T),
      CockLock.unlock c x = c.unlockCore (toString x)) ∧
    (∀ (T1 T2 : Type) [ToString T1] [ToString T2] (c : CockLock)
      (now ms : Int) (x1 : T1) (x2 : T2), toString x1 = toString x2 →
      CockLock.lock c now x1 ms = CockLock.lock c now x2 ms) ∧
    (∀ (T1 T2 : Type) [ToString T1] [ToString T2] (c : CockLock)
      (x1 : T1) (x2 : T2), toString x1 = toString x2 →
      CockLock.unlock c x1 = CockLock.unlock c x2) ∧
    (∀ (now ms : Int) (cid n : String) (t : List Record) (r : Record),
      r ∈ t → r.lock_name ≠ n → r.isExpired now = false →
      r ∈ (execLockQuery now cid n ms t).2) ∧
    (∀ (cid n : String) (t : List Record) (r : Record),
      r ∈ t → r.lock_name ≠ n → r ∈ (execUnlockQuery cid n t).2) := by
  refine ⟨fun T _ c now ms x => rfl, fun T _ c x => rfl, ?_, ?_, ?_, ?_⟩
  · intro T1 T2 i1 i2 c now ms x1 x2 hx
    simp only [CockLock.lock, hx]
  · intro T1 T2 i1 i2 c x1 x2 hx
    simp only [CockLock.unlock, hx]
  · intro now ms cid n t r hmem hname hlive
    have hr1 : r ∈ reap now t := reap_keeps now t r hmem hlive
    have hbn : (r.lock_name == n) = false := by simp [hname]
    cases hf : (reap now t).find? (fun s => s.lock_name == n) with
    | none =>
        simp only [execLockQuery, hf]
        exact List.mem_append_left _ hr1
    | some s =>
        by_cases hcond : (s.client_id == cid && s.lock_name == n) = true
        · simp only [execLockQuery, hf, hcond, if_true]
          exact List.mem_map.2 ⟨r, hr1, by simp [hbn]⟩
        · have hcond2 : (s.client_id == cid && s.lock_name == n) = false :=
            Bool.not_eq_true _ ▸ eq_false_of_ne_true hcond
          simp only [execLockQuery, hf, hcond2, if_false]
          exact hr1
  · intro cid n t r hmem hname
    refine List.mem_filter.2 ⟨hmem, ?_⟩
    simp [hname]
